import Mathlib

/-!
# FashionAdvisor — Outfit Assignment Engine, shallow embedding

A shallow embedding of the stylist core of the FashionAdvisor server
(`server/index.js`): the fingerprint module (`normalizeItemIds`), the store
projections (`getDetailedOutfits`, `fetchWardrobeItemsForOutfits`,
`mapBroadCategoryToType`), the recommender-backed generation path
(`generateStylistRecommendations`), the daily selector
(`POST /api/stylist/daily`), the weekly allocator (`planWeeklyOutfits`,
`pickOutfit`) and the wardrobe-item deletion cascade
(`DELETE /api/wardrobe/items/:id`).

External effects are made explicit: the OpenAI chat completion becomes an
oracle function from the serialized request context to a reply, database reads
and writes become explicit state passing of a list of outfit rows, `uuidv4`
and `NOW()` become a threaded counter, and `Math.random()` becomes an injected
natural number reduced mod the pool size.
-/

namespace FashionAdvisor

/-! ## Fingerprint module

JavaScript's default `Array.prototype.sort()` compares elements as strings,
code unit by code unit.  We embed that comparison as a boolean lexicographic
order on the character list of a Lean `String` (for the ASCII ids this
application handles, code units and code points coincide). -/

/-- Lexicographic less-or-equal on character lists, comparing scalar values,
as JS string comparison does code unit by code unit. -/
def lexLe : List Char → List Char → Bool
  | [], _ => true
  | _ :: _, [] => false
  | a :: as, b :: bs =>
    if a.toNat < b.toNat then true
    else if b.toNat < a.toNat then false
    else lexLe as bs

/-- JS string comparison (the default `sort()` comparator as a ≤ test). -/
def strLe (a b : String) : Bool :=
  lexLe a.data b.data

theorem char_toNat_inj {a b : Char} (h : a.toNat = b.toNat) : a = b := by
  apply Char.ext
  apply UInt32.ext
  exact h

theorem lexLe_total : ∀ as bs : List Char, lexLe as bs = true ∨ lexLe bs as = true
  | [], _ => Or.inl rfl
  | _ :: _, [] => Or.inr rfl
  | a :: as, b :: bs => by
    simp only [lexLe]
    rcases Nat.lt_trichotomy a.toNat b.toNat with h | h | h
    · left; simp [h]
    · have h1 : ¬a.toNat < b.toNat := by omega
      have h2 : ¬b.toNat < a.toNat := by omega
      simpa [h1, h2] using lexLe_total as bs
    · right; simp [h]

theorem lexLe_trans : ∀ as bs cs : List Char,
    lexLe as bs = true → lexLe bs cs = true → lexLe as cs = true
  | [], _, _, _, _ => rfl
  | _ :: _, [], _, h1, _ => by simp [lexLe] at h1
  | _ :: _, _ :: _, [], _, h2 => by simp [lexLe] at h2
  | a :: as, b :: bs, c :: cs, h1, h2 => by
    simp only [lexLe] at h1 h2 ⊢
    by_cases hab : a.toNat < b.toNat
    · by_cases hbc : b.toNat < c.toNat
      · simp [show a.toNat < c.toNat by omega]
      · have hcb : ¬c.toNat < b.toNat := by
          intro hc
          simp [hbc, hc] at h2
        simp [show a.toNat < c.toNat by omega]
    · by_cases hba : b.toNat < a.toNat
      · simp [hab, hba] at h1
      · have hab' : a.toNat = b.toNat := by omega
        by_cases hbc : b.toNat < c.toNat
        · simp [show a.toNat < c.toNat by omega]
        · by_cases hcb : c.toNat < b.toNat
          · simp [hbc, hcb] at h2
          · have hac1 : ¬a.toNat < c.toNat := by omega
            have hac2 : ¬c.toNat < a.toNat := by omega
            simp only [if_neg hab, if_neg hba] at h1
            simp only [if_neg hbc, if_neg hcb] at h2
            simp only [if_neg hac1, if_neg hac2]
            exact lexLe_trans as bs cs h1 h2

theorem lexLe_antisymm : ∀ as bs : List Char,
    lexLe as bs = true → lexLe bs as = true → as = bs
  | [], [], _, _ => rfl
  | [], _ :: _, _, h2 => by simp [lexLe] at h2
  | _ :: _, [], h1, _ => by simp [lexLe] at h1
  | a :: as, b :: bs, h1, h2 => by
    simp only [lexLe] at h1 h2
    by_cases hab : a.toNat < b.toNat
    · have hba : ¬b.toNat < a.toNat := by omega
      simp [hab, hba] at h2
    · by_cases hba : b.toNat < a.toNat
      · simp [hab, hba] at h1
      · have hchar : a = b := char_toNat_inj (by omega)
        simp only [if_neg hab, if_neg hba] at h1
        simp only [if_neg hba, if_neg hab] at h2
        rw [hchar, lexLe_antisymm as bs h1 h2]

/-- The sort relation used throughout the embedding. -/
def strLeRel : String → String → Prop := fun a b => strLe a b = true

instance : DecidableRel strLeRel := fun a b => Bool.decEq (strLe a b) true

instance : IsTotal String strLeRel :=
  ⟨fun a b => lexLe_total a.data b.data⟩

instance : IsTrans String strLeRel :=
  ⟨fun a b c => lexLe_trans a.data b.data c.data⟩

instance : IsAntisymm String strLeRel :=
  ⟨fun a b h1 h2 => by
    have h := lexLe_antisymm a.data b.data h1 h2
    cases a
    cases b
    exact congrArg String.mk h⟩

/-- Embedding of `normalizeItemIds(items)`:
`[...items].filter(Boolean).map(String).sort().join('|')`.
`filter(Boolean)` drops falsy entries — on strings, exactly the empty string;
`map(String)` is the identity on strings; `sort()` with no comparator sorts
by the JS string order embedded as `strLe`; `join('|')` interleaves the
separator. -/
def normalizeItemIds (items : List String) : String :=
  String.intercalate "|" (List.insertionSort strLeRel (items.filter (fun s => s ≠ "")))

/-- The JS callers may also pass a non-array (e.g. SQL `NULL` item_ids);
`normalizeItemIds` returns `''` on those: `if (!Array.isArray(items)) return ''`. -/
def normalizeItemIdsOpt : Option (List String) → String
  | none => ""
  | some l => normalizeItemIds l

/-- Sorting a list and sorting any permutation of it produce the same list. -/
theorem insertionSort_eq_of_perm (l₁ l₂ : List String) (h : l₁.Perm l₂) :
    List.insertionSort strLeRel l₁ = List.insertionSort strLeRel l₂ :=
  List.eq_of_perm_of_sorted
    ((List.perm_insertionSort _ _).trans (h.trans (List.perm_insertionSort _ _).symm))
    (List.sorted_insertionSort _ _) (List.sorted_insertionSort _ _)

/-! ## Data model

Projections of the `wardrobe_items` and `outfits` tables, restricted to the
columns the stylist engine reads.  `tags` on a wardrobe row is the vision
pipeline's JSON blob; the engine reads `item_name`, `broad_category` and
`colors` from it (`fetchWardrobeItemsForOutfits`), so the embedding carries
exactly those.  S3 image URLs, seasonality and style fields are projections
never consulted by the allocation logic and are omitted. -/

/-- JS `x || d` for an optional string: `null`/`undefined` and `""` fall
through to the default. -/
def jsOrString : Option String → String → String
  | none, d => d
  | some s, d => if s = "" then d else s

/-- JS `x || null` for an optional string: maps `""` to `null`. -/
def jsOrNull : Option String → Option String
  | none => none
  | some s => if s = "" then none else some s

/-- `String.prototype.toLowerCase()`, code point by code point. -/
def strToLower (s : String) : String :=
  ⟨s.data.map Char.toLower⟩

/-- A row of the `wardrobe_items` table (id plus the tag fields the engine
reads). -/
structure WardrobeRow where
  id : String
  item_name : Option String
  broad_category : String
  colors : List String
  deriving DecidableEq, Repr

/-- A row of the `outfits` table: `{ id, item_ids, tags, notes, name,
created_at }`.  `item_ids` is a SQL array column that may be NULL;
`created_at` is an abstract timestamp (larger = later). -/
structure OutfitRow where
  id : String
  item_ids : Option (List String)
  tags : Option (List String)
  notes : Option String
  name : Option String
  created_at : Nat
  deriving DecidableEq, Repr

/-- The display projection built per wardrobe item by
`fetchWardrobeItemsForOutfits` (image URL and usage fields omitted). -/
structure Item where
  id : String
  name : String
  type : String
  colors : List String
  deriving DecidableEq, Repr

/-- A detailed outfit as produced by `getDetailedOutfits`. -/
structure Outfit where
  id : String
  name : String
  notes : Option String
  createdAt : Nat
  items : List Item
  deriving DecidableEq, Repr

/-- Embedding of `mapBroadCategoryToType(category)`. -/
def mapBroadCategoryToType (category : String) : String :=
  let normalized := strToLower category
  if normalized = "tops" then "top"
  else if normalized = "top" then "top"
  else if normalized = "bottoms" then "bottom"
  else if normalized = "bottom" then "bottom"
  else if normalized = "one-piece" then "dress"
  else if normalized = "dress" then "dress"
  else if normalized = "outerwear" then "outerwear"
  else if normalized = "shoes" then "shoes"
  else if normalized = "accessories" then "accessory"
  else if normalized = "underwear/sleepwear" then "accessory"
  else if normalized = "sportswear/athleisure" then "top"
  else "accessory"

/-- The display projection `fetchWardrobeItemsForOutfits` builds for one row:
`name = tags.item_name || 'Unnamed Item'`, `type` via
`mapBroadCategoryToType`, colors lowercased. -/
def toDisplayItem (w : WardrobeRow) : Item :=
  { id := w.id
    name := jsOrString w.item_name "Unnamed Item"
    type := mapBroadCategoryToType w.broad_category
    colors := w.colors.map strToLower }

/-- The id-keyed map `fetchWardrobeItemsForOutfits` returns, as a lookup:
ids with no wardrobe row resolve to nothing (tolerant join). -/
def wardrobeLookup (wardrobe : List WardrobeRow) (itemId : String) : Option Item :=
  (wardrobe.find? (fun w => w.id == itemId)).map toDisplayItem

/-- `ORDER BY created_at DESC` (stable on equal timestamps). -/
def byCreatedDesc : OutfitRow → OutfitRow → Prop :=
  fun a b => b.created_at ≤ a.created_at

instance : DecidableRel byCreatedDesc := fun a b => Nat.decLe b.created_at a.created_at

/-- Embedding of `getDetailedOutfits(outfitIds)`: select outfit rows (all of
them when `outfitIds` is empty, mirroring the JS default argument), newest
first, and resolve each row's `item_ids || []` through the wardrobe map,
silently dropping unresolvable ids. -/
def getDetailedOutfits (store : List OutfitRow) (wardrobe : List WardrobeRow)
    (outfitIds : List String) : List Outfit :=
  let rows := if outfitIds.length > 0 then store.filter (fun r => r.id ∈ outfitIds) else store
  (List.insertionSort byCreatedDesc rows).map (fun row =>
    { id := row.id
      name := jsOrString row.name "Saved Outfit"
      notes := jsOrNull row.notes
      createdAt := row.created_at
      items := (row.item_ids.getD []).filterMap (wardrobeLookup wardrobe) })

/-- The item projection shared by `formatOutfitForDaily` and
`formatOutfitForPlanner`: `color` is the first entry of the colors list. -/
structure FmtItem where
  id : String
  name : String
  type : String
  color : Option String
  deriving DecidableEq, Repr

def fmtItem (item : Item) : FmtItem :=
  { id := item.id, name := item.name, type := item.type, color := item.colors.head? }

/-- The daily endpoint's outfit payload. -/
structure FmtOutfit where
  id : String
  name : String
  reason : String
  items : List FmtItem
  deriving DecidableEq, Repr

/-- Embedding of `formatOutfitForDaily(outfit, fallbackReason)`:
`reason = outfit.notes || fallbackReason || 'Saved outfit from your catalog.'`;
returns nothing exactly when the outfit is missing. -/
def formatOutfitForDaily (outfit : Option Outfit) (fallbackReason : String) :
    Option FmtOutfit :=
  match outfit with
  | none => none
  | some o => some
    { id := o.id
      name := o.name
      reason := jsOrString o.notes (jsOrString (some fallbackReason) "Saved outfit from your catalog.")
      items := o.items.map fmtItem }

/-- The weekly endpoint's per-day outfit payload. -/
structure PlannerOutfit where
  id : String
  items : List FmtItem
  deriving DecidableEq, Repr

/-- Embedding of `formatOutfitForPlanner(outfit)` on a present outfit. -/
def formatOutfitForPlanner (o : Outfit) : PlannerOutfit :=
  { id := o.id, items := o.items.map fmtItem }

/-! ## Generative Recommender contract

The OpenAI chat completion call of `generateStylistRecommendations` is
modelled as an oracle function from the serialized user message (user data,
planning days, wardrobe snapshot, existing-outfit snapshot, rules) to a reply.
A missing `message.content` and unparseable JSON are the two throwing replies;
otherwise the reply carries the parsed `days` array (a parseable reply whose
`days` is not an array is the same as `parsed []`).  `uuidv4()` is an injected
id supply `fresh` indexed by a threaded counter, which also stamps `NOW()` on
inserted rows. -/

/-- One planning-day context as serialized into the recommender request; the
weekly path fills `events`, the daily path fills `event`. -/
structure DayPayload where
  date : String
  weather : Option String
  events : List String
  event : Option String
  deriving DecidableEq, Repr

/-- Free-form rule overrides; the daily path merges the request's tag list
into the caller rules (`{...rules, tags}`). -/
structure Rules where
  base : String
  tags : List String
  deriving DecidableEq, Repr

/-- The serialized `userContent` of the chat completion request. -/
structure OracleInput where
  user : String
  days : List DayPayload
  wardrobe : List WardrobeRow
  existing_outfits : List (String × Option (List String))
  rules : Rules
  deriving DecidableEq, Repr

/-- One day of the parsed model output.  `outfit` is the `item_id` column of
the returned `{item_id, rationale}` list (the rationale is never read by the
persistence logic). -/
structure RecDay where
  date : String
  use_existing_outfit_id : Bool
  outfit : List String
  tags : Option (List String)
  notes : Option String
  name : Option String
  deriving DecidableEq, Repr

/-- The recommender's possible replies. -/
inductive OracleReply where
  | noResponse
  | badJson
  | parsed (days : List RecDay)
  deriving DecidableEq, Repr

/-- The external generative model. -/
def Oracle : Type := OracleInput → OracleReply

/-- One entry of the `results` array built by
`generateStylistRecommendations`. -/
structure GenResult where
  date : String
  outfitId : Option String
  outfit : List String
  notes : Option String
  deriving DecidableEq, Repr

/-- The fingerprint-keyed `existingMap`.  A JS `Map` built from a pair list
keeps the last pair for each key, so the pair list is reversed and lookups
scan from the front; `Map.prototype.set` conses the fresh binding in front. -/
def buildExistingMap (rows : List (String × Option (List String))) : List (String × String) :=
  (rows.map (fun o => (normalizeItemIdsOpt o.2, o.1))).reverse

def mapLookup (m : List (String × String)) (k : String) : Option String :=
  (m.find? (fun p => p.1 == k)).map (fun p => p.2)

/-- The per-day persistence loop of `generateStylistRecommendations`: reuse
the id of an existing record with the same fingerprint, otherwise insert a
new record (and extend the in-call map) when the proposed item list is
non-empty, otherwise record no outfit id. -/
def genLoop (fresh : Nat → String) :
    List RecDay → List (String × String) → List OutfitRow → Nat →
    List GenResult × List OutfitRow × Nat
  | [], _, store, n => ([], store, n)
  | day :: rest, emap, store, n =>
    let outfitItems := day.outfit
    let key := normalizeItemIds outfitItems
    let step : Option String × List (String × String) × List OutfitRow × Nat :=
      if day.use_existing_outfit_id ∧ (mapLookup emap key).isSome then
        (mapLookup emap key, emap, store, n)
      else if (mapLookup emap key).isSome then
        (mapLookup emap key, emap, store, n)
      else if outfitItems.length > 0 then
        let oid := fresh n
        (some oid, (key, oid) :: emap,
          store ++ [{ id := oid, item_ids := some outfitItems, tags := day.tags,
                      notes := jsOrNull day.notes, name := jsOrNull day.name,
                      created_at := n }], n + 1)
      else
        (none, emap, store, n)
    let rec' := genLoop fresh rest step.2.1 step.2.2.1 step.2.2.2
    ({ date := day.date, outfitId := step.1, outfit := outfitItems,
       notes := jsOrNull day.notes } :: rec'.1, rec'.2)

/-- Embedding of `generateStylistRecommendations(user, days, rules)`:
read the wardrobe and the current outfit rows, build the fingerprint map,
consult the model, and either throw (`RecommenderError`) or run the
persistence loop over the returned days. -/
def generateStylistRecommendations (oracle : Oracle) (fresh : Nat → String)
    (user : String) (days : List DayPayload) (rules : Rules)
    (wardrobe : List WardrobeRow) (store : List OutfitRow) (counter : Nat) :
    Except String (List GenResult × List OutfitRow × Nat) :=
  match oracle { user := user, days := days, wardrobe := wardrobe,
                 existing_outfits := store.map (fun o => (o.id, o.item_ids)),
                 rules := rules } with
  | .noResponse => .error "No response from stylist model"
  | .badJson => .error "Stylist response not valid JSON"
  | .parsed outDays =>
    .ok (genLoop fresh outDays
      (buildExistingMap (store.map (fun o => (o.id, o.item_ids)))) store counter)

/-! ## Weekly Allocator -/

/-- The fixed category partition of `planWeeklyOutfits`. -/
def restrictedTypes : List String := ["top", "bottom", "dress"]

/-- Declared in the source alongside `restrictedTypes` but never read. -/
def flexibleTypes : List String := ["outerwear", "shoes"]

/-- The conflict test of `pickOutfit`: some item of the outfit has a
restricted type and an id already consumed this horizon. -/
def outfitConflicts (o : Outfit) (used : List String) : Bool :=
  o.items.any (fun item =>
    decide (strToLower item.type ∈ restrictedTypes) && decide (item.id ∈ used))

/-- Embedding of `pickOutfit(available, usedOutfitIds, usedRestrictedItems,
restrictedTypes, allowRestrictedReuse)`: scan the pool in order, skip outfits
already used this horizon, skip conflicting outfits unless reuse is allowed
or the consumed-item set is `null`, and splice the first fit out of the pool.
Returns the choice together with the remaining pool. -/
def pickOutfit (available : List Outfit) (usedOutfitIds : List String)
    (usedRestrictedItems : Option (List String)) (allowRestrictedReuse : Bool) :
    Option (Outfit × List Outfit) :=
  match available with
  | [] => none
  | o :: rest =>
    if o.id ∈ usedOutfitIds then
      (pickOutfit rest usedOutfitIds usedRestrictedItems allowRestrictedReuse).map
        (fun p => (p.1, o :: p.2))
    else if !allowRestrictedReuse &&
        (match usedRestrictedItems with
         | some used => outfitConflicts o used
         | none => false) then
      (pickOutfit rest usedOutfitIds usedRestrictedItems allowRestrictedReuse).map
        (fun p => (p.1, o :: p.2))
    else
      some (o, rest)

/-- The restricted item ids an outfit consumes when chosen. -/
def restrictedItemIds (o : Outfit) : List String :=
  (o.items.filter (fun item => decide (strToLower item.type ∈ restrictedTypes))).map
    (fun item => item.id)

/-- The accumulator threaded through the day-by-day loop of
`planWeeklyOutfits`: the shrinking pool, the used-outfit and consumed-item
sets, and the mutable database state touched by the generation fallback. -/
structure PlanState where
  available : List Outfit
  usedOutfitIds : List String
  usedRestrictedItems : List String
  store : List OutfitRow
  counter : Nat
  deriving DecidableEq, Repr

/-- Which branch of the loop body resolved a day, with the chosen outfit:
the strict pool scan, the relaxed pool scan, the generation fallback, or
none (the day is omitted). -/
inductive DayOutcome where
  | strict (o : Outfit)
  | relaxed (o : Outfit)
  | generated (o : Outfit)
  | skipped
  deriving DecidableEq, Repr

/-- The success bookkeeping of the loop body: mark the outfit used and its
restricted item ids consumed for subsequent days; the pool update (a splice
for the two scan branches, unchanged for generation) is passed in. -/
def markUsed (s : PlanState) (o : Outfit) (available' : List Outfit) : PlanState :=
  { s with
    available := available'
    usedOutfitIds := s.usedOutfitIds ++ [o.id]
    usedRestrictedItems := s.usedRestrictedItems ++ restrictedItemIds o }

/-- One iteration of the `for (const day of dayEntries)` loop of
`planWeeklyOutfits`, with the branch taken recorded as a `DayOutcome`. -/
def planDay (oracle : Oracle) (fresh : Nat → String) (user : String) (rules : Rules)
    (wardrobe : List WardrobeRow) (s : PlanState) (day : DayPayload) :
    Except String (DayOutcome × PlanState) :=
  match pickOutfit s.available s.usedOutfitIds (some s.usedRestrictedItems) false with
  | some (o, avail') => .ok (.strict o, markUsed s o avail')
  | none =>
    match pickOutfit s.available s.usedOutfitIds none true with
    | some (o, avail') => .ok (.relaxed o, markUsed s o avail')
    | none =>
      match generateStylistRecommendations oracle fresh user
          [{ date := day.date, weather := day.weather, events := day.events, event := none }]
          rules wardrobe s.store s.counter with
      | .error e => .error e
      | .ok out =>
        match out.1 with
        | r :: _ =>
          match r.outfitId with
          | some oid =>
            match getDetailedOutfits out.2.1 wardrobe [oid] with
            | o :: _ =>
              .ok (.generated o,
                markUsed { s with store := out.2.1, counter := out.2.2 } o s.available)
            | [] => .ok (.skipped, { s with store := out.2.1, counter := out.2.2 })
          | none => .ok (.skipped, { s with store := out.2.1, counter := out.2.2 })
        | [] => .ok (.skipped, { s with store := out.2.1, counter := out.2.2 })

/-- The full day loop, returning the dated outcome trace and the final
accumulator.  A thrown `RecommenderError` propagates out of the loop. -/
def planDays (oracle : Oracle) (fresh : Nat → String) (user : String) (rules : Rules)
    (wardrobe : List WardrobeRow) :
    List DayPayload → PlanState → Except String (List (String × DayOutcome) × PlanState)
  | [], s => .ok ([], s)
  | day :: rest, s =>
    match planDay oracle fresh user rules wardrobe s day with
    | .error e => .error e
    | .ok (outcome, s') =>
      match planDays oracle fresh user rules wardrobe rest s' with
      | .error e => .error e
      | .ok (trace, sF) => .ok ((day.date, outcome) :: trace, sF)

/-- `{ date, outfitId, outfit }` as pushed onto `responses`. -/
structure Assignment where
  date : String
  outfitId : String
  outfit : PlannerOutfit
  deriving DecidableEq, Repr

/-- The weekly endpoint's response body `{ days: [...] }`. -/
structure WeeklyPlan where
  days : List Assignment
  deriving DecidableEq, Repr

def outcomeOutfit : DayOutcome → Option Outfit
  | .strict o => some o
  | .relaxed o => some o
  | .generated o => some o
  | .skipped => none

/-- Whether a day was resolved by one of the two history-reuse pool scans. -/
def isHistory : DayOutcome → Bool
  | .strict _ => true
  | .relaxed _ => true
  | .generated _ => false
  | .skipped => false

/-- Embedding of `planWeeklyOutfits(dayEntries, user, rules)`: snapshot the
detailed outfits once as the pool, run the day loop, and keep one response
per resolved day in loop order.  The response list is the projection of the
outcome trace: exactly the `responses.push` calls of the source. -/
def planWeeklyOutfits (oracle : Oracle) (fresh : Nat → String)
    (dayEntries : List DayPayload) (user : String) (rules : Rules)
    (store : List OutfitRow) (wardrobe : List WardrobeRow) (counter : Nat) :
    Except String WeeklyPlan :=
  match planDays oracle fresh user rules wardrobe dayEntries
      { available := getDetailedOutfits store wardrobe []
        usedOutfitIds := []
        usedRestrictedItems := []
        store := store
        counter := counter } with
  | .error e => .error e
  | .ok (trace, _) =>
    .ok { days := trace.filterMap (fun p => (outcomeOutfit p.2).map (fun o =>
      { date := p.1, outfitId := o.id, outfit := formatOutfitForPlanner o })) }

/-! ## Daily Selector -/

/-- The daily endpoint's possible responses: the success payload
`{ source, weather, mainOutfit, alternatives }`, or an HTTP error status
with its message (a thrown `RecommenderError` is caught by the route and
becomes a 500). -/
inductive DailyResponse where
  | ok (source : String) (weather : Option String) (mainOutfit : FmtOutfit)
      (alternatives : List FmtOutfit)
  | httpError (status : Nat) (message : String)
  deriving DecidableEq, Repr

/-- Embedding of `POST /api/stylist/daily`.  `rand` injects `Math.random()`:
the main index is `rand % n`, the uniform pick among the `n` snapshot
records.  `strategy` falls back to `"existing"` when absent or empty and is
lowercased; any value other than `"new"` takes the existing path whenever the
snapshot is non-empty. -/
def dailyStylist (oracle : Oracle) (fresh : Nat → String) (rand : Nat)
    (strategy : Option String) (tags : List String) (user : String)
    (rulesBase : String) (weather : Option String) (reqDay : Option DayPayload)
    (today : String) (reqEvent : Option String)
    (store : List OutfitRow) (wardrobe : List WardrobeRow) (counter : Nat) :
    DailyResponse :=
  let strat := strToLower (jsOrString strategy "existing")
  let dayPayload := reqDay.getD
    { date := today, weather := weather, events := [], event := reqEvent }
  let outfits := getDetailedOutfits store wardrobe []
  if strat ≠ "new" ∧ outfits.length > 0 then
    let mainIndex := rand % outfits.length
    let alternatives := (outfits.eraseIdx mainIndex).take 2
    match formatOutfitForDaily (outfits.get? mainIndex) "Pulled from your saved outfits." with
    | none => .httpError 500 "Saved outfit could not be formatted"
    | some formattedMain =>
      .ok "existing" weather formattedMain
        (alternatives.filterMap (fun o =>
          formatOutfitForDaily (some o) "Another look from your saved catalog."))
  else
    match generateStylistRecommendations oracle fresh user [dayPayload]
        { base := rulesBase, tags := tags } wardrobe store counter with
    | .error e => .httpError 500 e
    | .ok out =>
      match out.1 with
      | [] => .httpError 502 "Unable to generate outfit right now"
      | generated :: _ =>
        match jsOrNull generated.outfitId with
        | none => .httpError 502 "No outfit ID generated"
        | some gid =>
          let generatedOutfit := (getDetailedOutfits out.2.1 wardrobe [gid]).head?
          let remainingAlternatives :=
            (getDetailedOutfits out.2.1 wardrobe []).filter (fun o => o.id ≠ gid)
          match formatOutfitForDaily generatedOutfit
              (jsOrString generated.notes "AI stylist created this look for today.") with
          | none => .httpError 502 "Unable to resolve generated outfit"
          | some formattedMain =>
            .ok "new" weather formattedMain
              ((remainingAlternatives.take 2).filterMap (fun o =>
                formatOutfitForDaily (some o) "Previously saved option."))

/-! ## Wardrobe deletion cascade -/

/-- PostgreSQL `array_length(arr, 1)`: NULL for a NULL **or empty** array;
the length otherwise. -/
def pgArrayLength : Option (List String) → Option Nat
  | none => none
  | some l => if l.length = 0 then none else some l.length

/-- PostgreSQL `array_remove(arr, x)`: drop every element equal to `x`;
NULL stays NULL. -/
def pgArrayRemove (arr : Option (List String)) (x : String) : Option (List String) :=
  arr.map (fun l => l.filter (fun y => y ≠ x))

/-- Embedding of the outfit cascade in `DELETE /api/wardrobe/items/:id`:

    UPDATE outfits SET item_ids = array_remove(item_ids, $1)
      WHERE item_ids IS NOT NULL;
    DELETE FROM outfits WHERE item_ids IS NULL OR array_length(item_ids, 1) = 0;

A row survives the DELETE unless its predicate evaluates to TRUE under SQL
semantics; `array_length` of an empty array is NULL, and `NULL = 0` is not
TRUE. -/
def deleteWardrobeItemCascade (store : List OutfitRow) (itemId : String) :
    List OutfitRow :=
  let updated := store.map (fun r =>
    if r.item_ids.isSome then { r with item_ids := pgArrayRemove r.item_ids itemId } else r)
  updated.filter (fun r =>
    !(r.item_ids.isNone || decide (pgArrayLength r.item_ids = some 0)))

/-! ## Concrete scenarios

Small stores, wardrobes and horizons used to evaluate the embedding at
concrete inputs. -/

/-- A wardrobe row for item `i`, tagged with broad category `"tops"` (which
maps to the restricted display type `"top"`). -/
def topRow (i : String) : WardrobeRow :=
  { id := i, item_name := none, broad_category := "tops", colors := [] }

/-- An outfit row with a single wardrobe item and a given timestamp. -/
def singleItemOutfitRow (o i : String) (t : Nat) : OutfitRow :=
  { id := o, item_ids := some [i], tags := none, notes := none, name := none, created_at := t }

/-- Six single-item outfits over six distinct restricted items, newest first. -/
def sixOutfitStore : List OutfitRow :=
  [singleItemOutfitRow "o1" "i1" 6, singleItemOutfitRow "o2" "i2" 5,
   singleItemOutfitRow "o3" "i3" 4, singleItemOutfitRow "o4" "i4" 3,
   singleItemOutfitRow "o5" "i5" 2, singleItemOutfitRow "o6" "i6" 1]

def sixItemWardrobe : List WardrobeRow :=
  [topRow "i1", topRow "i2", topRow "i3", topRow "i4", topRow "i5", topRow "i6"]

/-- A weekly horizon day with no weather and no events. -/
def plainDay (d : String) : DayPayload :=
  { date := d, weather := none, events := [], event := none }

/-- A seven-day horizon. -/
def sevenDays : List DayPayload :=
  [plainDay "d1", plainDay "d2", plainDay "d3", plainDay "d4",
   plainDay "d5", plainDay "d6", plainDay "d7"]

/-- The detailed outfit `getDetailedOutfits` produces for a scenario row
`singleItemOutfitRow o i t`. -/
def singleItemDetailedOutfit (o i : String) (t : Nat) : Outfit :=
  { id := o, name := "Saved Outfit", notes := none, createdAt := t,
    items := [{ id := i, name := "Unnamed Item", type := "top", colors := [] }] }

/-- A one-day recommender proposal consisting of the single item `i1`. -/
def proposalI1 : RecDay :=
  { date := "d1", use_existing_outfit_id := false, outfit := ["i1"],
    tags := none, notes := none, name := none }

/-- The assignment produced for a day that reuses the single-item outfit
`o`/`i` of the scenario store. -/
def singleItemAssignment (d o i : String) : Assignment :=
  { date := d, outfitId := o,
    outfit := { id := o,
                items := [{ id := i, name := "Unnamed Item", type := "top", color := none }] } }

end FashionAdvisor

namespace FashionAdvisor

/-- C6: For every input list of item ids and every permutation of that list,
the fingerprint function produces the identical key. -/
theorem normalizeItemIds_perm_invariant (l₁ l₂ : List String) (h : l₁.Perm l₂) :
    normalizeItemIds l₁ = normalizeItemIds l₂ := by
  unfold normalizeItemIds
  exact congrArg _ (insertionSort_eq_of_perm _ _ (h.filter _))

/-- Witness for C6 at the concrete permutation `["a","b"] ~ ["b","a"]`. -/
theorem normalizeItemIds_perm_invariant_witness :
    normalizeItemIds ["a", "b"] = normalizeItemIds ["b", "a"] :=
  normalizeItemIds_perm_invariant ["a", "b"] ["b", "a"] (List.Perm.swap "b" "a" [])

/-- C1 counterexample: `normalizeItemIds` does not deduplicate, so the
duplicate-laden list `["b","a","a"]` keys to `"a|a|b"`, not to the key
`"a|b"` of its deduplicated form. -/
theorem normalizeItemIds_no_dedup_counterexample :
    normalizeItemIds ["b", "a", "a"] = "a|a|b" ∧
      normalizeItemIds ["a", "b"] = "a|b" ∧
      normalizeItemIds ["b", "a", "a"] ≠ normalizeItemIds ["a", "b"] := by
  refine ⟨?_, ?_, ?_⟩ <;> decide

/-- C1 amended: the fingerprint is invariant under permutation of the input
list, but it preserves duplicate multiplicities, so a duplicate-laden list
keys differently from its deduplicated form; in particular
`canonicalize(["b","a","a"]) = "a|a|b" ≠ "a|b" = canonicalize(["a","b"])`. -/
theorem normalizeItemIds_perm_not_dedup (l₁ l₂ : List String) (h : l₁.Perm l₂) :
    normalizeItemIds l₁ = normalizeItemIds l₂ ∧
      normalizeItemIds ["b", "a", "a"] = "a|a|b" ∧
      normalizeItemIds ["a", "b"] = "a|b" :=
  ⟨normalizeItemIds_perm_invariant l₁ l₂ h, by decide, by decide⟩

/-- Witness for the amended C1 at the permutation `["b","a","a"] ~ ["a","a","b"]`. -/
theorem normalizeItemIds_perm_not_dedup_witness :
    normalizeItemIds ["b", "a", "a"] = normalizeItemIds ["a", "a", "b"] ∧
      normalizeItemIds ["b", "a", "a"] = "a|a|b" ∧
      normalizeItemIds ["a", "b"] = "a|b" :=
  normalizeItemIds_perm_not_dedup ["b", "a", "a"] ["a", "a", "b"]
    ((List.Perm.swap "a" "b" ["a"]).trans (List.Perm.cons "a" (List.Perm.swap "a" "b" [])))

/-- C8 (code bug): deleting wardrobe item `"i1"` from a store whose only
outfit record is `{o1, ["i1"]}` removes the id from the record, but the
record — now holding the empty set — survives the purge:
`array_length('{}', 1)` is NULL in PostgreSQL, so the DELETE predicate
`item_ids IS NULL OR array_length(item_ids, 1) = 0` is not TRUE for it, and
the engine can observe an empty-set OutfitRecord. -/
theorem delete_cascade_leaves_empty_record :
    deleteWardrobeItemCascade [singleItemOutfitRow "o1" "i1" 0] "i1" =
      [{ id := "o1", item_ids := some [], tags := none, notes := none,
         name := none, created_at := 0 }] := by
  rfl

/-- C2 counterexample: in a 7-day horizon over six reusable outfits, days 1–6
resolve from history and day 7 falls through to generation; when the
recommender yields no response (a `RecommenderError`), the exception
propagates out of the day loop and the whole weekly call fails — the result
is not a 6-entry partial plan. -/
theorem weekly_thrown_recommender_error_aborts_horizon :
    planWeeklyOutfits (fun _ => OracleReply.noResponse) (fun _ => "gen")
        sevenDays "user" { base := "", tags := [] } sixOutfitStore sixItemWardrobe 0 =
      Except.error "No response from stylist model" := by
  rfl

/-- C2 amended: a thrown `RecommenderError` aborts the whole weekly call;
the omit-one-day degradation applies when the generation call itself
succeeds but yields no outfit for the day.  In the same 7-day horizon, when
the recommender answers day 7 with an empty plan, the result contains
exactly the 6 history-resolved entries, omitting only day 7. -/
theorem weekly_empty_generation_omits_only_failing_day :
    planWeeklyOutfits (fun _ => OracleReply.parsed []) (fun _ => "gen")
        sevenDays "user" { base := "", tags := [] } sixOutfitStore sixItemWardrobe 0 =
      Except.ok { days :=
        [singleItemAssignment "d1" "o1" "i1", singleItemAssignment "d2" "o2" "i2",
         singleItemAssignment "d3" "o3" "i3", singleItemAssignment "d4" "o4" "i4",
         singleItemAssignment "d5" "o5" "i5", singleItemAssignment "d6" "o6" "i6"] } := by
  rfl

/-- A fingerprint hit in the `existingMap` names a pair of the snapshot with
that fingerprint. -/
theorem mapLookup_buildExistingMap_mem
    (rows : List (String × Option (List String))) (k v : String)
    (h : mapLookup (buildExistingMap rows) k = some v) :
    ∃ p ∈ rows, normalizeItemIdsOpt p.2 = k ∧ p.1 = v := by
  unfold mapLookup buildExistingMap at h
  cases hf : List.find? (fun p => p.1 == k)
      ((rows.map (fun o => (normalizeItemIdsOpt o.2, o.1))).reverse) with
  | none => rw [hf] at h; cases h
  | some q =>
    rw [hf] at h
    have hq := List.mem_of_find?_eq_some hf
    have hqk := List.find?_some hf
    rw [List.mem_reverse, List.mem_map] at hq
    obtain ⟨p, hp, hpq⟩ := hq
    refine ⟨p, hp, ?_, ?_⟩
    · have : q.1 = k := by simpa using hqk
      rw [← this, ← hpq]
    · cases h
      rw [← hpq]

/-- A snapshot pair's fingerprint always hits the `existingMap`. -/
theorem mapLookup_buildExistingMap_isSome
    (rows : List (String × Option (List String))) (p : String × Option (List String))
    (hp : p ∈ rows) :
    (mapLookup (buildExistingMap rows) (normalizeItemIdsOpt p.2)).isSome := by
  unfold mapLookup buildExistingMap
  have hs : (List.find? (fun q => q.1 == normalizeItemIdsOpt p.2)
      ((rows.map (fun o => (normalizeItemIdsOpt o.2, o.1))).reverse)).isSome := by
    rw [List.find?_isSome]
    exact ⟨(normalizeItemIdsOpt p.2, p.1),
      by rw [List.mem_reverse]; exact List.mem_map_of_mem _ hp, by simp⟩
  obtain ⟨q, hq⟩ := Option.isSome_iff_exists.mp hs
  rw [hq]
  rfl

/-- Appending a row to the snapshot conses its fingerprint binding onto the
front of the map, shadowing earlier bindings of the same key — the JS
last-pair-wins `Map` construction. -/
theorem buildExistingMap_append (rows : List (String × Option (List String)))
    (p : String × Option (List String)) :
    buildExistingMap (rows ++ [p]) =
      (normalizeItemIdsOpt p.2, p.1) :: buildExistingMap rows := by
  simp [buildExistingMap]

theorem mapLookup_cons_self (m : List (String × String)) (k v : String) :
    mapLookup ((k, v) :: m) k = some v := by
  simp [mapLookup]

theorem normalizeItemIdsOpt_some (l : List String) :
    normalizeItemIdsOpt (some l) = normalizeItemIds l := rfl

/-- The single-day persistence step of `generateStylistRecommendations`:
either branch of the (redundantly duplicated) map-hit conditional reuses the
mapped id without touching the store; a miss with a non-empty proposal
inserts a fresh record; a miss with an empty proposal records no id. -/
theorem genLoop_single (fresh : Nat → String) (d : RecDay)
    (emap : List (String × String)) (store : List OutfitRow) (n : Nat) :
    genLoop fresh [d] emap store n =
      match mapLookup emap (normalizeItemIds d.outfit) with
      | some v =>
        ([{ date := d.date, outfitId := some v, outfit := d.outfit,
            notes := jsOrNull d.notes }], store, n)
      | none =>
        if d.outfit.length > 0 then
          ([{ date := d.date, outfitId := some (fresh n), outfit := d.outfit,
              notes := jsOrNull d.notes }],
           store ++ [{ id := fresh n, item_ids := some d.outfit, tags := d.tags,
                       notes := jsOrNull d.notes, name := jsOrNull d.name,
                       created_at := n }], n + 1)
        else
          ([{ date := d.date, outfitId := none, outfit := d.outfit,
              notes := jsOrNull d.notes }], store, n) := by
  cases hm : mapLookup emap (normalizeItemIds d.outfit) with
  | some v =>
    by_cases hu : d.use_existing_outfit_id = true
    · simp [genLoop, hm, hu]
    · simp [genLoop, hm, hu]
  | none =>
    by_cases hl : 0 < d.outfit.length
    · simp [genLoop, hm, hl]
    · simp [genLoop, hm, hl]

/-- C4: fingerprint dedup in `generateStylistRecommendations`.  When the
recommender proposes the non-empty item-set `d.outfit` for a single day:
the call returns one result with an outfit id; if the fixed store snapshot
already holds a record whose fingerprint equals the proposal's, that
record's id is returned and no record is inserted; and a second call
proposing the identical item-set against the store left by the first
resolves to the same OutfitRecord id as the first and creates no second
record. -/
theorem generate_dedup_reuses_existing_id
    (oracle : Oracle) (fresh : Nat → String) (user : String)
    (days days₂ : List DayPayload) (rules : Rules) (wardrobe : List WardrobeRow)
    (store : List OutfitRow) (counter : Nat) (d d₂ : RecDay)
    (hsame : d₂.outfit = d.outfit) (hne : d.outfit ≠ [])
    (hreply : oracle
        { user := user, days := days, wardrobe := wardrobe,
          existing_outfits := store.map (fun o => (o.id, o.item_ids)), rules := rules } =
      .parsed [d]) :
    ∃ res1 store1 n1,
      generateStylistRecommendations oracle fresh user days rules wardrobe store counter =
          .ok ([res1], store1, n1) ∧
        res1.outfitId.isSome = true ∧
        ((∃ r ∈ store, normalizeItemIdsOpt r.item_ids = normalizeItemIds d.outfit) →
          store1 = store ∧
            ∃ r ∈ store, normalizeItemIdsOpt r.item_ids = normalizeItemIds d.outfit ∧
              res1.outfitId = some r.id) ∧
        ∀ counter₂,
          oracle
              { user := user, days := days₂, wardrobe := wardrobe,
                existing_outfits := store1.map (fun o => (o.id, o.item_ids)),
                rules := rules } =
            .parsed [d₂] →
          ∃ res2,
            generateStylistRecommendations oracle fresh user days₂ rules wardrobe
                store1 counter₂ =
              .ok ([res2], store1, counter₂) ∧
            res2.outfitId = res1.outfitId := by
  have hlen : 0 < d.outfit.length := List.length_pos.mpr hne
  unfold generateStylistRecommendations
  rw [hreply]
  dsimp only
  rw [genLoop_single]
  cases hm : mapLookup (buildExistingMap (store.map (fun o => (o.id, o.item_ids))))
      (normalizeItemIds d.outfit) with
  | some v =>
    refine ⟨_, _, _, rfl, rfl, ?_, ?_⟩
    · intro _
      obtain ⟨p, hp, hkey, hid⟩ := mapLookup_buildExistingMap_mem _ _ _ hm
      rw [List.mem_map] at hp
      obtain ⟨r, hr, rfl⟩ := hp
      exact ⟨rfl, r, hr, hkey, congrArg some hid.symm⟩
    · intro counter₂ hreply₂
      rw [hreply₂]
      dsimp only
      rw [genLoop_single, hsame, hm]
      exact ⟨_, rfl, rfl⟩
  | none =>
    rw [if_pos hlen]
    refine ⟨_, _, _, rfl, rfl, ?_, ?_⟩
    · rintro ⟨r, hr, hkey⟩
      have hsome := mapLookup_buildExistingMap_isSome
        (store.map (fun o => (o.id, o.item_ids))) (r.id, r.item_ids)
        (List.mem_map_of_mem _ hr)
      rw [show normalizeItemIdsOpt (r.id, r.item_ids).2 = normalizeItemIds d.outfit from hkey,
        hm] at hsome
      cases hsome
    · intro counter₂ hreply₂
      rw [hreply₂]
      dsimp only
      rw [genLoop_single, hsame]
      rw [List.map_append, List.map_cons, List.map_nil, buildExistingMap_append,
        normalizeItemIdsOpt_some, mapLookup_cons_self]
      exact ⟨_, rfl, rfl⟩

/-- Witness for C4: a proposal of `["i1"]` against a snapshot already holding
the record `o1 = {"i1"}`. -/
theorem generate_dedup_reuses_existing_id_witness :
    ∃ res1 store1 n1,
      generateStylistRecommendations (fun _ => OracleReply.parsed [proposalI1])
          (fun _ => "gen") "user" [plainDay "d1"] { base := "", tags := [] }
          [topRow "i1"] [singleItemOutfitRow "o1" "i1" 1] 0 =
        Except.ok ([res1], store1, n1) ∧ res1.outfitId.isSome = true := by
  obtain ⟨res1, store1, n1, h1, h2, h3, h4⟩ :=
    generate_dedup_reuses_existing_id (fun _ => OracleReply.parsed [proposalI1])
      (fun _ => "gen") "user" [plainDay "d1"] [plainDay "d1"] { base := "", tags := [] }
      [topRow "i1"] [singleItemOutfitRow "o1" "i1" 1] 0 proposalI1 proposalI1
      rfl (by decide) rfl
  exact ⟨res1, store1, n1, h1, h2⟩

/-- `map` commutes with `eraseIdx`. -/
theorem map_eraseIdx_comm {a : Type _} {b : Type _} (f : a → b) : ∀ (l : List a) (i : Nat),
    (l.eraseIdx i).map f = (l.map f).eraseIdx i
  | [], _ => by simp
  | _ :: _, 0 => by simp
  | x :: t, i + 1 => by
    simp only [List.eraseIdx_cons_succ, List.map_cons]
    rw [map_eraseIdx_comm f t i]

/-- In a duplicate-free list, the elements left after erasing index `i`
differ from the element at index `i`. -/
theorem ne_getElem_of_mem_eraseIdx {a : Type _} :
    ∀ (l : List a), l.Nodup → ∀ (i : Nat) (hi : i < l.length),
      ∀ x ∈ l.eraseIdx i, x ≠ l[i]
  | [], _, i, hi, x, hx => by simp at hi
  | c :: t, hnd, 0, hi, x, hx => by
    intro hEq
    simp only [List.eraseIdx_cons_zero] at hx
    simp only [List.getElem_cons_zero] at hEq
    subst hEq
    exact (List.nodup_cons.mp hnd).1 hx
  | c :: t, hnd, i + 1, hi, x, hx => by
    simp only [List.eraseIdx_cons_succ] at hx
    simp only [List.getElem_cons_succ]
    rcases List.mem_cons.mp hx with rfl | hmem
    · intro hEq
      exact (List.nodup_cons.mp hnd).1 (hEq ▸ List.getElem_mem _)
    · exact ne_getElem_of_mem_eraseIdx t (List.nodup_cons.mp hnd).2 i
        (by simpa using hi) x hmem

/-- C10: any daily strategy whose lowercased value is not exactly `"new"`
(including a missing or empty one, which defaults to `"existing"`) is handled
by the existing path whenever the outfit snapshot is non-empty; no validation
error is raised for an unrecognized strategy. -/
theorem daily_non_new_strategy_takes_existing_path
    (oracle : Oracle) (fresh : Nat → String) (rand : Nat) (strategy : Option String)
    (tags : List String) (user rulesBase : String) (weather : Option String)
    (reqDay : Option DayPayload) (today : String) (reqEvent : Option String)
    (store : List OutfitRow) (wardrobe : List WardrobeRow) (counter : Nat)
    (hstrat : strToLower (jsOrString strategy "existing") ≠ "new")
    (hne : getDetailedOutfits store wardrobe [] ≠ []) :
    ∃ main alts,
      dailyStylist oracle fresh rand strategy tags user rulesBase weather reqDay today
        reqEvent store wardrobe counter = .ok "existing" weather main alts := by
  have hlen : 0 < (getDetailedOutfits store wardrobe []).length := List.length_pos.mpr hne
  have hidx : rand % (getDetailedOutfits store wardrobe []).length <
      (getDetailedOutfits store wardrobe []).length := Nat.mod_lt _ hlen
  simp only [dailyStylist]
  rw [if_pos ⟨hstrat, hlen⟩]
  rw [List.get?_eq_get hidx]
  simp only [formatOutfitForDaily]
  exact ⟨_, _, rfl⟩

/-- Witness for C10 at the unrecognized strategy `"Bogus"` over a one-outfit
snapshot. -/
theorem daily_non_new_strategy_takes_existing_path_witness :
    ∃ main alts,
      dailyStylist (fun _ => OracleReply.noResponse) (fun _ => "gen") 0 (some "Bogus")
        [] "user" "" none none "2026-01-01" none [singleItemOutfitRow "o1" "i1" 1]
        [topRow "i1"] 0 = .ok "existing" none main alts :=
  daily_non_new_strategy_takes_existing_path (fun _ => OracleReply.noResponse)
    (fun _ => "gen") 0 (some "Bogus") [] "user" "" none none "2026-01-01" none
    [singleItemOutfitRow "o1" "i1" 1] [topRow "i1"] 0 (by decide) (by decide)

/-- C5: with strategy `"existing"` and a non-empty outfit snapshot with
duplicate-free record ids, the daily response has source `"existing"`, its
main outfit is the snapshot record at the injected uniform index
`rand % n`, the alternatives are at most two records excluding the chosen
main outfit, and a snapshot of size one yields no alternatives. -/
theorem daily_existing_pick_and_alternatives
    (oracle : Oracle) (fresh : Nat → String) (rand : Nat)
    (tags : List String) (user rulesBase : String) (weather : Option String)
    (reqDay : Option DayPayload) (today : String) (reqEvent : Option String)
    (store : List OutfitRow) (wardrobe : List WardrobeRow) (counter : Nat)
    (hne : getDetailedOutfits store wardrobe [] ≠ [])
    (hnd : ((getDetailedOutfits store wardrobe []).map (fun o => o.id)).Nodup) :
    ∃ main alts,
      dailyStylist oracle fresh rand (some "existing") tags user rulesBase weather
          reqDay today reqEvent store wardrobe counter =
        .ok "existing" weather main alts ∧
      main.id ∈ (getDetailedOutfits store wardrobe []).map (fun o => o.id) ∧
      alts.length ≤ 2 ∧
      (∀ fa ∈ alts, fa.id ≠ main.id) ∧
      ((getDetailedOutfits store wardrobe []).length = 1 → alts = []) := by
  simp only [dailyStylist]
  set l := getDetailedOutfits store wardrobe [] with hl
  have hlen : 0 < l.length := List.length_pos.mpr hne
  have hidx : rand % l.length < l.length := Nat.mod_lt _ hlen
  rw [if_pos ⟨by decide, hlen⟩]
  simp only [List.get?_eq_getElem?, List.getElem?_eq_getElem hidx]
  simp only [formatOutfitForDaily]
  refine ⟨_, _, rfl, ?_, ?_, ?_, ?_⟩
  · exact List.mem_map_of_mem _ (l.getElem_mem hidx)
  · exact le_trans (List.length_filterMap_le _ _) (by simp)
  · intro fa hfa
    rw [List.mem_filterMap] at hfa
    obtain ⟨o, ho, heq⟩ := hfa
    cases heq
    have homem : o ∈ l.eraseIdx (rand % l.length) := List.mem_of_mem_take ho
    have hdmem : o.id ∈ (l.map (fun x => x.id)).eraseIdx (rand % l.length) := by
      rw [← map_eraseIdx_comm]
      exact List.mem_map_of_mem _ homem
    have hne2 := ne_getElem_of_mem_eraseIdx (l.map (fun x => x.id)) hnd
      (rand % l.length) (by simpa using hidx) _ hdmem
    simpa using hne2
  · intro h1
    obtain ⟨o, ho⟩ := List.length_eq_one.mp h1
    rw [ho]
    simp [Nat.mod_one]

/-- Witness for C5 over the one-outfit snapshot `[o1 = {"i1"}]`. -/
theorem daily_existing_pick_and_alternatives_witness :
    ∃ main alts,
      dailyStylist (fun _ => OracleReply.noResponse) (fun _ => "gen") 0 (some "existing")
          [] "user" "" none none "2026-01-01" none [singleItemOutfitRow "o1" "i1" 1]
          [topRow "i1"] 0 =
        .ok "existing" none main alts ∧
      main.id ∈ (getDetailedOutfits [singleItemOutfitRow "o1" "i1" 1] [topRow "i1"] []).map
        (fun o => o.id) ∧
      alts.length ≤ 2 ∧
      (∀ fa ∈ alts, fa.id ≠ main.id) ∧
      ((getDetailedOutfits [singleItemOutfitRow "o1" "i1" 1] [topRow "i1"] []).length = 1 →
        alts = []) :=
  daily_existing_pick_and_alternatives (fun _ => OracleReply.noResponse) (fun _ => "gen")
    0 [] "user" "" none none "2026-01-01" none [singleItemOutfitRow "o1" "i1" 1]
    [topRow "i1"] 0 (by decide) (by decide)

/-! ### Weekly allocator: loop-body case analysis and invariants -/

/-- Exhaustive case analysis of one iteration of the weekly day loop. -/
theorem planDay_cases (oracle : Oracle) (fresh : Nat → String) (user : String)
    (rules : Rules) (wardrobe : List WardrobeRow) (s : PlanState) (day : DayPayload)
    (out : DayOutcome × PlanState)
    (h : planDay oracle fresh user rules wardrobe s day = .ok out) :
    (∃ o avail2,
        pickOutfit s.available s.usedOutfitIds (some s.usedRestrictedItems) false =
          some (o, avail2) ∧ out = (.strict o, markUsed s o avail2)) ∨
    (pickOutfit s.available s.usedOutfitIds (some s.usedRestrictedItems) false = none ∧
      ∃ o avail2, pickOutfit s.available s.usedOutfitIds none true = some (o, avail2) ∧
        out = (.relaxed o, markUsed s o avail2)) ∨
    (pickOutfit s.available s.usedOutfitIds (some s.usedRestrictedItems) false = none ∧
      pickOutfit s.available s.usedOutfitIds none true = none ∧
      ∃ store2 counter2,
        (∃ o, out = (.generated o,
            markUsed { s with store := store2, counter := counter2 } o s.available)) ∨
          out = (.skipped, { s with store := store2, counter := counter2 })) := by
  unfold planDay at h
  split at h
  · rename_i o avail2 hpick
    left
    cases h
    exact ⟨o, avail2, hpick, rfl⟩
  · rename_i hpick1
    split at h
    · rename_i o avail2 hpick
      right; left
      cases h
      exact ⟨hpick1, o, avail2, hpick, rfl⟩
    · rename_i hpick2
      right; right
      refine ⟨hpick1, hpick2, ?_⟩
      split at h
      · cases h
      · rename_i out2 hgen
        split at h
        · rename_i r rest2
          split at h
          · rename_i oid hoid
            split at h
            · rename_i o rest3 hdet
              cases h
              exact ⟨out2.2.1, out2.2.2, Or.inl ⟨o, rfl⟩⟩
            · cases h
              exact ⟨out2.2.1, out2.2.2, Or.inr rfl⟩
          · cases h
            exact ⟨out2.2.1, out2.2.2, Or.inr rfl⟩
        · cases h
          exact ⟨out2.2.1, out2.2.2, Or.inr rfl⟩

/-- A returned outfit of a pool scan has an id outside the used set, and —
in the strict variant — no restricted-item conflict with the consumed set. -/
theorem pickOutfit_sound :
    ∀ (available : List Outfit) (used : List String) (consumed : Option (List String))
      (allowR : Bool) (o : Outfit) (rest : List Outfit),
      pickOutfit available used consumed allowR = some (o, rest) →
      o.id ∉ used ∧
        (allowR = false → ∀ cs, consumed = some cs → outfitConflicts o cs = false)
  | [], used, consumed, allowR, o, rest, h => by simp [pickOutfit] at h
  | c :: t, used, consumed, allowR, o, rest, h => by
    simp only [pickOutfit] at h
    split at h
    · rename_i h1
      cases hrec : pickOutfit t used consumed allowR with
      | none => rw [hrec] at h; cases h
      | some p =>
        rw [hrec] at h
        simp only [Option.map_some'] at h
        cases h
        exact pickOutfit_sound t used consumed allowR p.1 p.2 hrec
    · rename_i h1
      split at h
      · rename_i h2
        cases hrec : pickOutfit t used consumed allowR with
        | none => rw [hrec] at h; cases h
        | some p =>
          rw [hrec] at h
          simp only [Option.map_some'] at h
          cases h
          exact pickOutfit_sound t used consumed allowR p.1 p.2 hrec
      · rename_i h2
        cases h
        refine ⟨h1, ?_⟩
        intro hallow cs hcs
        subst hallow
        subst hcs
        simpa using h2

/-- An outfit without restricted conflicts consumes only ids outside the
consumed set. -/
theorem no_conflict_disjoint (o : Outfit) (consumed : List String)
    (h : outfitConflicts o consumed = false) :
    ∀ x ∈ restrictedItemIds o, x ∉ consumed := by
  intro x hx hmem
  rw [restrictedItemIds, List.mem_map] at hx
  obtain ⟨item, hitem, rfl⟩ := hx
  rw [List.mem_filter] at hitem
  rw [outfitConflicts, List.any_eq_false] at h
  have := h item hitem.1
  simp only [Bool.and_eq_true, decide_eq_true_eq] at this
  exact this ⟨by simpa using hitem.2, hmem⟩

theorem markUsed_consumed_super (s : PlanState) (o : Outfit) (avail2 : List Outfit) :
    ∀ x ∈ s.usedRestrictedItems, x ∈ (markUsed s o avail2).usedRestrictedItems := by
  intro x hx
  simp only [markUsed]
  exact List.mem_append_left _ hx

theorem markUsed_consumes_restricted (s : PlanState) (o : Outfit) (avail2 : List Outfit) :
    ∀ x ∈ restrictedItemIds o, x ∈ (markUsed s o avail2).usedRestrictedItems := by
  intro x hx
  simp only [markUsed]
  exact List.mem_append_right _ hx

/-- The consumed-item set only grows across one loop iteration. -/
theorem planDay_consumed_mono (oracle : Oracle) (fresh : Nat → String) (user : String)
    (rules : Rules) (wardrobe : List WardrobeRow) (s : PlanState) (day : DayPayload)
    (out : DayOutcome × PlanState)
    (h : planDay oracle fresh user rules wardrobe s day = .ok out) :
    ∀ x ∈ s.usedRestrictedItems, x ∈ out.2.usedRestrictedItems := by
  rcases planDay_cases oracle fresh user rules wardrobe s day out h with
    ⟨o, a2, hpick, rfl⟩ | ⟨hp1, o, a2, hpick, rfl⟩ | ⟨hp1, hp2, st2, c2, hcase⟩
  · exact markUsed_consumed_super s o a2
  · exact markUsed_consumed_super s o a2
  · rcases hcase with ⟨o, rfl⟩ | rfl
    · intro x hx
      exact markUsed_consumed_super _ o s.available x hx
    · intro x hx
      exact hx

/-- Characterization of a successful day loop on a non-empty horizon: the
first day resolves, the rest of the loop runs from the updated accumulator,
and the trace is the dated first outcome followed by the rest. -/
theorem planDays_cons_ok (oracle : Oracle) (fresh : Nat → String) (user : String)
    (rules : Rules) (wardrobe : List WardrobeRow) (day : DayPayload)
    (rest : List DayPayload) (s : PlanState)
    (out : List (String × DayOutcome) × PlanState)
    (h : planDays oracle fresh user rules wardrobe (day :: rest) s = .ok out) :
    ∃ oc s1 trace1,
      planDay oracle fresh user rules wardrobe s day = .ok (oc, s1) ∧
      planDays oracle fresh user rules wardrobe rest s1 = .ok (trace1, out.2) ∧
      out.1 = (day.date, oc) :: trace1 := by
  simp only [planDays] at h
  split at h
  · cases h
  · rename_i oc s1 hday
    split at h
    · cases h
    · rename_i trace1 sF1 hrest
      cases h
      exact ⟨oc, s1, trace1, hday, hrest, rfl⟩

/-- Once some ids are consumed, any later strict-path day's outfit avoids all
of them: the strict scan rejects restricted conflicts against the running
consumed set, which only grows. -/
theorem planDays_disjoint_aux (oracle : Oracle) (fresh : Nat → String) (user : String)
    (rules : Rules) (wardrobe : List WardrobeRow) :
    ∀ (days : List DayPayload) (s : PlanState) (trace : List (String × DayOutcome))
      (sF : PlanState),
      planDays oracle fresh user rules wardrobe days s = .ok (trace, sF) →
      ∀ X : List String, (∀ x ∈ X, x ∈ s.usedRestrictedItems) →
        ∀ (t₂ t₃ : List (String × DayOutcome)) (d₂ : String) (o₂ : Outfit),
          trace = t₂ ++ (d₂, DayOutcome.strict o₂) :: t₃ →
          ∀ x ∈ X, x ∉ restrictedItemIds o₂ := by
  intro days
  induction days with
  | nil =>
    intro s trace sF h X hX t₂ t₃ d₂ o₂ htr
    simp only [planDays] at h
    cases h
    cases t₂ <;> simp at htr
  | cons day rest ih =>
    intro s trace sF h X hX t₂ t₃ d₂ o₂ htr
    obtain ⟨oc, s1, trace1, hday, hrest, htr1⟩ :=
      planDays_cons_ok oracle fresh user rules wardrobe day rest s (trace, sF) h
    simp only at htr1 hrest
    subst htr1
    cases t₂ with
    | nil =>
      simp only [List.nil_append, List.cons.injEq, Prod.mk.injEq] at htr
      obtain ⟨⟨-, hout⟩, -⟩ := htr
      rcases planDay_cases oracle fresh user rules wardrobe s day (oc, s1) hday
        with ⟨o, a2, hpick, heq⟩ | ⟨-, o, a2, -, heq⟩ | ⟨-, -, st2, c2, hcase⟩
      · rw [Prod.mk.injEq] at heq
        obtain ⟨hoc, -⟩ := heq
        rw [hoc] at hout
        have ho := DayOutcome.strict.inj hout
        subst ho
        intro x hx hxo
        have hconf := (pickOutfit_sound s.available s.usedOutfitIds
          (some s.usedRestrictedItems) false o a2 hpick).2 rfl s.usedRestrictedItems rfl
        exact no_conflict_disjoint o s.usedRestrictedItems hconf x hxo (hX x hx)
      · rw [Prod.mk.injEq] at heq
        obtain ⟨hoc, -⟩ := heq
        rw [hoc] at hout
        cases hout
      · rcases hcase with ⟨o, heq⟩ | heq
        · rw [Prod.mk.injEq] at heq
          obtain ⟨hoc, -⟩ := heq
          rw [hoc] at hout
          cases hout
        · rw [Prod.mk.injEq] at heq
          obtain ⟨hoc, -⟩ := heq
          rw [hoc] at hout
          cases hout
    | cons p t₂tail =>
      simp only [List.cons_append, List.cons.injEq] at htr
      obtain ⟨-, htail⟩ := htr
      exact ih s1 trace1 sF hrest X
        (fun x hx =>
          planDay_consumed_mono oracle fresh user rules wardrobe s day (oc, s1) hday x
            (hX x hx))
        t₂tail t₃ d₂ o₂ htail

/-- Two strict-path days of one run have disjoint restricted item-id sets
(general over the initial accumulator). -/
theorem planDays_strict_pairwise_disjoint (oracle : Oracle) (fresh : Nat → String)
    (user : String) (rules : Rules) (wardrobe : List WardrobeRow) :
    ∀ (days : List DayPayload) (s : PlanState) (trace : List (String × DayOutcome))
      (sF : PlanState),
      planDays oracle fresh user rules wardrobe days s = .ok (trace, sF) →
      ∀ (t₁ t₂ t₃ : List (String × DayOutcome)) (d₁ d₂ : String) (o₁ o₂ : Outfit),
        trace = t₁ ++ (d₁, DayOutcome.strict o₁) ::
            (t₂ ++ (d₂, DayOutcome.strict o₂) :: t₃) →
        ∀ x ∈ restrictedItemIds o₁, x ∉ restrictedItemIds o₂ := by
  intro days
  induction days with
  | nil =>
    intro s trace sF h t₁ t₂ t₃ d₁ d₂ o₁ o₂ htr
    simp only [planDays] at h
    cases h
    cases t₁ <;> simp at htr
  | cons day rest ih =>
    intro s trace sF h t₁ t₂ t₃ d₁ d₂ o₁ o₂ htr
    obtain ⟨oc, s1, trace1, hday, hrest, htr1⟩ :=
      planDays_cons_ok oracle fresh user rules wardrobe day rest s (trace, sF) h
    simp only at htr1 hrest
    subst htr1
    cases t₁ with
    | nil =>
      simp only [List.nil_append, List.cons.injEq, Prod.mk.injEq] at htr
      obtain ⟨⟨-, hout⟩, htail⟩ := htr
      rcases planDay_cases oracle fresh user rules wardrobe s day (oc, s1) hday
        with ⟨o, a2, hpick, heq⟩ | ⟨-, o, a2, -, heq⟩ | ⟨-, -, st2, c2, hcase⟩
      · rw [Prod.mk.injEq] at heq
        obtain ⟨hoc, hs1⟩ := heq
        rw [hoc] at hout
        have ho := DayOutcome.strict.inj hout
        subst ho
        exact planDays_disjoint_aux oracle fresh user rules wardrobe rest s1 trace1 sF
          hrest (restrictedItemIds o)
          (by
            rw [hs1]
            exact markUsed_consumes_restricted s o a2)
          t₂ t₃ d₂ o₂ htail
      · rw [Prod.mk.injEq] at heq
        obtain ⟨hoc, -⟩ := heq
        rw [hoc] at hout
        cases hout
      · rcases hcase with ⟨o, heq⟩ | heq
        · rw [Prod.mk.injEq] at heq
          obtain ⟨hoc, -⟩ := heq
          rw [hoc] at hout
          cases hout
        · rw [Prod.mk.injEq] at heq
          obtain ⟨hoc, -⟩ := heq
          rw [hoc] at hout
          cases hout
    | cons p t₁tail =>
      simp only [List.cons_append, List.cons.injEq] at htr
      obtain ⟨-, htail⟩ := htr
      exact ih s1 trace1 sF hrest t₁tail t₂ t₃ d₁ d₂ o₁ o₂ htail

/-- C3: in one weekly horizon run, any two days both resolved via the
strict-match path are assigned outfits whose RESTRICTED (top/bottom/dress)
item-id sets are disjoint: the later strict scan rejects any outfit whose
restricted items were consumed by an earlier day. -/
theorem weekly_strict_days_restricted_disjoint
    (oracle : Oracle) (fresh : Nat → String) (user : String) (rules : Rules)
    (store : List OutfitRow) (wardrobe : List WardrobeRow) (counter : Nat)
    (days : List DayPayload) (trace : List (String × DayOutcome)) (sF : PlanState)
    (h : planDays oracle fresh user rules wardrobe days
        { available := getDetailedOutfits store wardrobe []
          usedOutfitIds := []
          usedRestrictedItems := []
          store := store
          counter := counter } = .ok (trace, sF))
    (t₁ t₂ t₃ : List (String × DayOutcome)) (d₁ d₂ : String) (o₁ o₂ : Outfit)
    (htr : trace = t₁ ++ (d₁, DayOutcome.strict o₁) ::
        (t₂ ++ (d₂, DayOutcome.strict o₂) :: t₃)) :
    ∀ x ∈ restrictedItemIds o₁, x ∉ restrictedItemIds o₂ :=
  planDays_strict_pairwise_disjoint oracle fresh user rules wardrobe days _ trace sF h
    t₁ t₂ t₃ d₁ d₂ o₁ o₂ htr

/-- Witness for C3: a two-day run over the two-outfit pool, instantiated at
the first strict day's consumed item `"i1"`. -/
theorem weekly_strict_days_restricted_disjoint_witness :
    "i1" ∉ restrictedItemIds (singleItemDetailedOutfit "o2" "i2" 1) :=
  weekly_strict_days_restricted_disjoint (fun _ => OracleReply.noResponse)
    (fun _ => "gen") "user" { base := "", tags := [] }
    [singleItemOutfitRow "o1" "i1" 2, singleItemOutfitRow "o2" "i2" 1]
    [topRow "i1", topRow "i2"] 0 [plainDay "d1", plainDay "d2"] _ _ rfl
    [] [] [] "d1" "d2" (singleItemDetailedOutfit "o1" "i1" 2)
    (singleItemDetailedOutfit "o2" "i2" 1) rfl "i1" (by decide)

/-- The day loop emits one trace entry per request day, carrying that day's
date, in request order. -/
theorem planDays_trace_dates (oracle : Oracle) (fresh : Nat → String) (user : String)
    (rules : Rules) (wardrobe : List WardrobeRow) :
    ∀ (days : List DayPayload) (s : PlanState)
      (out : List (String × DayOutcome) × PlanState),
      planDays oracle fresh user rules wardrobe days s = .ok out →
      out.1.map Prod.fst = days.map DayPayload.date := by
  intro days
  induction days with
  | nil =>
    intro s out h
    simp only [planDays] at h
    cases h
    rfl
  | cons day rest ih =>
    intro s out h
    simp only [planDays] at h
    split at h
    · cases h
    · rename_i outcome s' heq
      split at h
      · cases h
      · rename_i trace sF hrest
        cases h
        simpa using ih s' (trace, sF) hrest


/-! ### Weekly allocator: weather-independence of history reuse -/

/-- The relaxed scan (`usedRestrictedItems = null`, reuse allowed) fails
exactly when every pooled outfit is already used. -/
theorem pickOutfit_none_iff_all_used :
    ∀ (available : List Outfit) (used : List String),
      pickOutfit available used none true = none ↔ ∀ o ∈ available, o.id ∈ used
  | [], used => by simp [pickOutfit]
  | c :: t, used => by
    by_cases h1 : c.id ∈ used
    · simp only [pickOutfit, if_pos h1]
      cases hrec : pickOutfit t used none true with
      | none =>
        simp only [Option.map_none', true_iff]
        have := (pickOutfit_none_iff_all_used t used).mp hrec
        intro o ho
        rcases List.mem_cons.mp ho with rfl | ho'
        · exact h1
        · exact this o ho'
      | some p =>
        simp only [Option.map_some']
        constructor
        · intro hcontra
          cases hcontra
        · intro hall
          have : pickOutfit t used none true = none :=
            (pickOutfit_none_iff_all_used t used).mpr
              (fun o ho => hall o (List.mem_cons_of_mem _ ho))
          rw [this] at hrec
          cases hrec
    · simp only [pickOutfit, if_pos h1, if_neg h1, Bool.not_true, Bool.false_and,
        Bool.not_eq_true]
      constructor
      · intro hcontra
        simp at hcontra
      · intro hall
        exact absurd (hall c (List.mem_cons_self _ _)) h1

/-- Any pool scan fails when every pooled outfit is already used. -/
theorem pickOutfit_none_of_all_used :
    ∀ (available : List Outfit) (used : List String)
      (consumed : Option (List String)) (allowR : Bool),
      (∀ o ∈ available, o.id ∈ used) →
      pickOutfit available used consumed allowR = none
  | [], _, _, _, _ => rfl
  | c :: t, used, consumed, allowR, hall => by
    simp only [pickOutfit, if_pos (hall c (List.mem_cons_self _ _))]
    rw [pickOutfit_none_of_all_used t used consumed allowR
      (fun o ho => hall o (List.mem_cons_of_mem _ ho))]
    rfl

/-- Loop-body computation: a successful strict scan resolves the day with
that outfit, regardless of the day's weather and events. -/
theorem planDay_of_pick_strict (oracle : Oracle) (fresh : Nat → String) (user : String)
    (rules : Rules) (wardrobe : List WardrobeRow) (s : PlanState) (day : DayPayload)
    (o : Outfit) (a2 : List Outfit)
    (hpick : pickOutfit s.available s.usedOutfitIds (some s.usedRestrictedItems) false =
      some (o, a2)) :
    planDay oracle fresh user rules wardrobe s day = .ok (.strict o, markUsed s o a2) := by
  unfold planDay
  rw [hpick]

/-- Loop-body computation: a failed strict scan followed by a successful
relaxed scan resolves the day with that outfit, regardless of the day's
weather and events. -/
theorem planDay_of_pick_relaxed (oracle : Oracle) (fresh : Nat → String) (user : String)
    (rules : Rules) (wardrobe : List WardrobeRow) (s : PlanState) (day : DayPayload)
    (o : Outfit) (a2 : List Outfit)
    (hp1 : pickOutfit s.available s.usedOutfitIds (some s.usedRestrictedItems) false = none)
    (hp2 : pickOutfit s.available s.usedOutfitIds none true = some (o, a2)) :
    planDay oracle fresh user rules wardrobe s day = .ok (.relaxed o, markUsed s o a2) := by
  unfold planDay
  rw [hp1, hp2]

/-- Once the pool is exhausted (every pooled id used), a loop iteration never
resolves via history, leaves the pool unchanged, and keeps the pool
exhausted. -/
theorem planDay_saturated (oracle : Oracle) (fresh : Nat → String) (user : String)
    (rules : Rules) (wardrobe : List WardrobeRow) (s : PlanState) (day : DayPayload)
    (oc : DayOutcome) (s1 : PlanState)
    (hsat : ∀ o ∈ s.available, o.id ∈ s.usedOutfitIds)
    (h : planDay oracle fresh user rules wardrobe s day = .ok (oc, s1)) :
    isHistory oc = false ∧ s1.available = s.available ∧
      ∀ o ∈ s1.available, o.id ∈ s1.usedOutfitIds := by
  rcases planDay_cases oracle fresh user rules wardrobe s day (oc, s1) h with
    ⟨o, a2, hpick, heq⟩ | ⟨-, o, a2, hpick, heq⟩ | ⟨-, -, st2, c2, hcase⟩
  · rw [pickOutfit_none_of_all_used s.available s.usedOutfitIds
      (some s.usedRestrictedItems) false hsat] at hpick
    cases hpick
  · rw [pickOutfit_none_of_all_used s.available s.usedOutfitIds none true hsat] at hpick
    cases hpick
  · rcases hcase with ⟨o, heq⟩ | heq
    · rw [Prod.mk.injEq] at heq
      obtain ⟨hoc, hs1⟩ := heq
      subst hoc
      subst hs1
      refine ⟨rfl, rfl, ?_⟩
      intro o2 ho2
      simp only [markUsed] at ho2 ⊢
      exact List.mem_append_left _ (hsat o2 ho2)
    · rw [Prod.mk.injEq] at heq
      obtain ⟨hoc, hs1⟩ := heq
      subst hoc
      subst hs1
      exact ⟨rfl, rfl, hsat⟩

/-- Once the pool is exhausted, no later day of the run resolves via
history. -/
theorem planDays_saturated_no_history (oracle : Oracle) (fresh : Nat → String)
    (user : String) (rules : Rules) (wardrobe : List WardrobeRow) :
    ∀ (days : List DayPayload) (s : PlanState) (trace : List (String × DayOutcome))
      (sF : PlanState),
      planDays oracle fresh user rules wardrobe days s = .ok (trace, sF) →
      (∀ o ∈ s.available, o.id ∈ s.usedOutfitIds) →
      ∀ e ∈ trace, isHistory e.2 = false := by
  intro days
  induction days with
  | nil =>
    intro s trace sF h hsat e he
    simp only [planDays] at h
    cases h
    cases he
  | cons day rest ih =>
    intro s trace sF h hsat e he
    obtain ⟨oc, s1, trace1, hday, hrest, htr1⟩ :=
      planDays_cons_ok oracle fresh user rules wardrobe day rest s (trace, sF) h
    simp only at htr1 hrest
    subst htr1
    obtain ⟨hnh, havail, hsat1⟩ :=
      planDay_saturated oracle fresh user rules wardrobe s day oc s1 hsat hday
    rcases List.mem_cons.mp he with rfl | he'
    · exact hnh
    · exact ih s1 trace1 sF hrest hsat1 e he'

/-- The trace has one entry per request day. -/
theorem planDays_trace_length (oracle : Oracle) (fresh : Nat → String) (user : String)
    (rules : Rules) (wardrobe : List WardrobeRow) (days : List DayPayload)
    (s : PlanState) (out : List (String × DayOutcome) × PlanState)
    (h : planDays oracle fresh user rules wardrobe days s = .ok out) :
    out.1.length = days.length := by
  have hd := planDays_trace_dates oracle fresh user rules wardrobe days s out h
  have h1 : (out.1.map Prod.fst).length = (days.map DayPayload.date).length := by rw [hd]
  simpa using h1

/-- Traces of equal length with no history-resolved entries are pointwise
related by the weather-independence relation (vacuously). -/
theorem forall2_of_no_history :
    ∀ (l₁ l₂ : List (String × DayOutcome)),
      l₁.length = l₂.length →
      (∀ e ∈ l₁, isHistory e.2 = false) →
      (∀ e ∈ l₂, isHistory e.2 = false) →
      List.Forall₂ (fun e₁ e₂ => (isHistory e₁.2 = true ∨ isHistory e₂.2 = true) → e₁ = e₂)
        l₁ l₂
  | [], [], _, _, _ => List.Forall₂.nil
  | [], _ :: _, h, _, _ => by simp at h
  | _ :: _, [], h, _, _ => by simp at h
  | a :: l₁, b :: l₂, h, h₁, h₂ => by
    refine List.Forall₂.cons ?_
      (forall2_of_no_history l₁ l₂ (by simpa using h)
        (fun e he => h₁ e (List.mem_cons_of_mem _ he))
        (fun e he => h₂ e (List.mem_cons_of_mem _ he)))
    intro hor
    rcases hor with hh | hh
    · rw [h₁ a (List.mem_cons_self _ _)] at hh
      cases hh
    · rw [h₂ b (List.mem_cons_self _ _)] at hh
      cases hh

/-- Weather/event-independence of history reuse, general over the initial
accumulator: two runs over day lists with the same dates, from the same
state, agree on every trace entry that either run resolved via the strict or
relaxed path. -/
theorem planDays_history_weather_independent (oracle : Oracle) (fresh : Nat → String)
    (user : String) (rules : Rules) (wardrobe : List WardrobeRow) :
    ∀ (days₁ days₂ : List DayPayload),
      List.Forall₂ (fun a b => a.date = b.date) days₁ days₂ →
      ∀ (s : PlanState) (t₁ t₂ : List (String × DayOutcome)) (f₁ f₂ : PlanState),
        planDays oracle fresh user rules wardrobe days₁ s = .ok (t₁, f₁) →
        planDays oracle fresh user rules wardrobe days₂ s = .ok (t₂, f₂) →
        List.Forall₂
          (fun e₁ e₂ => (isHistory e₁.2 = true ∨ isHistory e₂.2 = true) → e₁ = e₂)
          t₁ t₂ := by
  intro days₁ days₂ hd
  induction hd with
  | nil =>
    intro s t₁ t₂ f₁ f₂ h₁ h₂
    simp only [planDays] at h₁ h₂
    cases h₁
    cases h₂
    exact List.Forall₂.nil
  | cons hdate hrest ih =>
    rename_i d₁ d₂ r₁ r₂
    intro s t₁ t₂ f₁ f₂ h₁ h₂
    obtain ⟨oc₁, s₁, tr₁, hday₁, hrest₁, htr₁⟩ :=
      planDays_cons_ok oracle fresh user rules wardrobe d₁ r₁ s (t₁, f₁) h₁
    obtain ⟨oc₂, s₂, tr₂, hday₂, hrest₂, htr₂⟩ :=
      planDays_cons_ok oracle fresh user rules wardrobe d₂ r₂ s (t₂, f₂) h₂
    simp only at htr₁ htr₂ hrest₁ hrest₂
    subst htr₁
    subst htr₂
    cases hpick1 : pickOutfit s.available s.usedOutfitIds (some s.usedRestrictedItems)
        false with
    | some p =>
      obtain ⟨o, a2⟩ := p
      have he₁ := planDay_of_pick_strict oracle fresh user rules wardrobe s d₁ o a2 hpick1
      have he₂ := planDay_of_pick_strict oracle fresh user rules wardrobe s d₂ o a2 hpick1
      rw [hday₁] at he₁
      rw [hday₂] at he₂
      cases he₁
      cases he₂
      refine List.Forall₂.cons (fun _ => by rw [hdate]) ?_
      exact ih (markUsed s o a2) tr₁ tr₂ f₁ f₂ hrest₁ hrest₂
    | none =>
      cases hpick2 : pickOutfit s.available s.usedOutfitIds none true with
      | some p =>
        obtain ⟨o, a2⟩ := p
        have he₁ := planDay_of_pick_relaxed oracle fresh user rules wardrobe s d₁ o a2
          hpick1 hpick2
        have he₂ := planDay_of_pick_relaxed oracle fresh user rules wardrobe s d₂ o a2
          hpick1 hpick2
        rw [hday₁] at he₁
        rw [hday₂] at he₂
        cases he₁
        cases he₂
        refine List.Forall₂.cons (fun _ => by rw [hdate]) ?_
        exact ih (markUsed s o a2) tr₁ tr₂ f₁ f₂ hrest₁ hrest₂
      | none =>
        have hsat : ∀ o ∈ s.available, o.id ∈ s.usedOutfitIds :=
          (pickOutfit_none_iff_all_used s.available s.usedOutfitIds).mp hpick2
        obtain ⟨hnh₁, havail₁, hsat₁⟩ :=
          planDay_saturated oracle fresh user rules wardrobe s d₁ oc₁ s₁ hsat hday₁
        obtain ⟨hnh₂, havail₂, hsat₂⟩ :=
          planDay_saturated oracle fresh user rules wardrobe s d₂ oc₂ s₂ hsat hday₂
        have hlen : tr₁.length = tr₂.length := by
          rw [planDays_trace_length oracle fresh user rules wardrobe r₁ s₁ (tr₁, f₁)
              hrest₁,
            planDays_trace_length oracle fresh user rules wardrobe r₂ s₂ (tr₂, f₂)
              hrest₂]
          exact hrest.length_eq
        refine List.Forall₂.cons ?_
          (forall2_of_no_history tr₁ tr₂ hlen
            (planDays_saturated_no_history oracle fresh user rules wardrobe r₁ s₁ tr₁ f₁
              hrest₁ hsat₁)
            (planDays_saturated_no_history oracle fresh user rules wardrobe r₂ s₂ tr₂ f₂
              hrest₂ hsat₂))
        intro hor
        rcases hor with hh | hh
        · rw [hnh₁] at hh
          cases hh
        · rw [hnh₂] at hh
          cases hh

/-- C9: for two weekly runs over the same store snapshot whose day lists
differ only in the weather and events attached to the days (same dates in
the same order), every day resolved via the strict-match or relaxed-match
history-reuse path selects the same outfit in both runs: the pool scans
consult only the pool, the used-outfit set and the consumed restricted-item
set, never the day's weather or events. -/
theorem weekly_history_reuse_ignores_weather
    (oracle : Oracle) (fresh : Nat → String) (user : String) (rules : Rules)
    (store : List OutfitRow) (wardrobe : List WardrobeRow) (counter : Nat)
    (days₁ days₂ : List DayPayload)
    (hdates : List.Forall₂ (fun a b => a.date = b.date) days₁ days₂)
    (t₁ t₂ : List (String × DayOutcome)) (f₁ f₂ : PlanState)
    (h₁ : planDays oracle fresh user rules wardrobe days₁
        { available := getDetailedOutfits store wardrobe []
          usedOutfitIds := []
          usedRestrictedItems := []
          store := store
          counter := counter } = .ok (t₁, f₁))
    (h₂ : planDays oracle fresh user rules wardrobe days₂
        { available := getDetailedOutfits store wardrobe []
          usedOutfitIds := []
          usedRestrictedItems := []
          store := store
          counter := counter } = .ok (t₂, f₂)) :
    List.Forall₂
      (fun e₁ e₂ => (isHistory e₁.2 = true ∨ isHistory e₂.2 = true) → e₁ = e₂) t₁ t₂ :=
  planDays_history_weather_independent oracle fresh user rules wardrobe days₁ days₂
    hdates _ t₁ t₂ f₁ f₂ h₁ h₂

/-- Witness for C9: one-day runs differing in weather and events both reuse
outfit `o1` via the strict path. -/
theorem weekly_history_reuse_ignores_weather_witness :
    List.Forall₂
      (fun e₁ e₂ : String × DayOutcome =>
        (isHistory e₁.2 = true ∨ isHistory e₂.2 = true) → e₁ = e₂)
      [("d1", DayOutcome.strict (singleItemDetailedOutfit "o1" "i1" 1))]
      [("d1", DayOutcome.strict (singleItemDetailedOutfit "o1" "i1" 1))] :=
  weekly_history_reuse_ignores_weather (fun _ => OracleReply.noResponse) (fun _ => "gen")
    "user" { base := "", tags := [] } [singleItemOutfitRow "o1" "i1" 1] [topRow "i1"] 0
    [{ date := "d1", weather := some "sunny", events := [], event := none }]
    [{ date := "d1", weather := some "rain", events := ["gala"], event := none }]
    (List.Forall₂.cons rfl List.Forall₂.nil) _ _ _ _ rfl rfl

/-- Projecting the outcome trace to response entries deletes exactly the
skipped days, so the response dates form a sublist of the trace dates. -/
theorem trace_assignment_dates_sublist :
    ∀ trace : List (String × DayOutcome),
      ((trace.filterMap (fun p => (outcomeOutfit p.2).map (fun o =>
          ({ date := p.1, outfitId := o.id,
             outfit := formatOutfitForPlanner o } : Assignment)))).map
        (fun a => a.date)).Sublist (trace.map Prod.fst)
  | [] => List.Sublist.slnil
  | (d, oc) :: rest => by
    cases hoc : outcomeOutfit oc with
    | none =>
      simpa [List.filterMap_cons, hoc] using
        (trace_assignment_dates_sublist rest).cons d
    | some o =>
      simpa [List.filterMap_cons, hoc] using
        (trace_assignment_dates_sublist rest).cons₂ d

/-- C7 amended: the allocator processes the horizon's days in the order the
request lists them (ascending only when the caller or the default horizon
provides them so), and the output is the per-day assignments in that request
order with unresolvable days absent: the output's date sequence is a sublist
of the request's date sequence. -/
theorem weekly_output_dates_sublist_of_request
    (oracle : Oracle) (fresh : Nat → String) (days : List DayPayload) (user : String)
    (rules : Rules) (store : List OutfitRow) (wardrobe : List WardrobeRow) (counter : Nat)
    (plan : WeeklyPlan)
    (h : planWeeklyOutfits oracle fresh days user rules store wardrobe counter = .ok plan) :
    (plan.days.map (fun a => a.date)).Sublist (days.map DayPayload.date) := by
  unfold planWeeklyOutfits at h
  cases hr : planDays oracle fresh user rules wardrobe days
      { available := getDetailedOutfits store wardrobe []
        usedOutfitIds := []
        usedRestrictedItems := []
        store := store
        counter := counter } with
  | error e => rw [hr] at h; cases h
  | ok out =>
    obtain ⟨trace, sF⟩ := out
    rw [hr] at h
    cases h
    rw [← planDays_trace_dates oracle fresh user rules wardrobe days _ (trace, sF) hr]
    exact trace_assignment_dates_sublist trace

/-- Witness for the amended C7 at the two-day out-of-order horizon. -/
theorem weekly_output_dates_sublist_of_request_witness :
    (((WeeklyPlan.mk [singleItemAssignment "2026-01-02" "o1" "i1",
          singleItemAssignment "2026-01-01" "o2" "i2"]).days.map (fun a => a.date)).Sublist
      ([plainDay "2026-01-02", plainDay "2026-01-01"].map DayPayload.date)) :=
  weekly_output_dates_sublist_of_request (fun _ => OracleReply.noResponse) (fun _ => "gen")
    [plainDay "2026-01-02", plainDay "2026-01-01"] "user" { base := "", tags := [] }
    [singleItemOutfitRow "o1" "i1" 2, singleItemOutfitRow "o2" "i2" 1]
    [topRow "i1", topRow "i2"] 0 _ rfl

/-- C7 counterexample: the allocator processes the horizon's days in the
order the request lists them, not in ascending calendar-date order: with the
days listed as `["2026-01-02", "2026-01-01"]` the output carries its two
assignments in that same descending date order. -/
theorem weekly_processes_days_in_request_order_counterexample :
    planWeeklyOutfits (fun _ => OracleReply.noResponse) (fun _ => "gen")
        [plainDay "2026-01-02", plainDay "2026-01-01"] "user" { base := "", tags := [] }
        [singleItemOutfitRow "o1" "i1" 2, singleItemOutfitRow "o2" "i2" 1]
        [topRow "i1", topRow "i2"] 0 =
      Except.ok { days :=
        [singleItemAssignment "2026-01-02" "o1" "i1",
         singleItemAssignment "2026-01-01" "o2" "i2"] } ∧
    strLe "2026-01-02" "2026-01-01" = false := by
  exact ⟨rfl, by decide⟩

end FashionAdvisor
